import Mathlib

/-!
Verification development for the Modbus polling drivers
(`modbus_tcp_driver.py`, `modbus_rtu_driver.py`).

The Python source is shallowly embedded: 16-bit register words are `Nat`
masked with `&&& 0xFFFF` where the source masks, endianness options are
the raw configuration strings (the source compares against the literal
"little" and treats every other string as big-endian), the pymodbus
client is an oracle `Env` mapping a (bank, address, count) request to
either a successful list of register words or a failure (`none` covers
`None` results, exception responses and `isError()` responses alike),
and the loosely typed schema dictionaries are records whose numeric
fields may be absent or non-convertible, mirroring `int()` / `float()`
conversions that can raise.
-/

namespace ModbusTCP

/-- `_swap_bytes_16`: `((w & 0x00FF) << 8) | ((w & 0xFF00) >> 8)`. -/
def swap_bytes_16 (w : Nat) : Nat :=
  ((w &&& 0x00FF) <<< 8) ||| ((w &&& 0xFF00) >>> 8)

/-- `_read_u16_from_regs`: mask the word to 16 bits, swap its bytes when
`byte_order == "little"`. -/
def read_u16_from_regs (byte_order : String) (regs : List Nat) (idx : Nat) : Nat :=
  let w := (regs.getD idx 0) &&& 0xFFFF
  if byte_order = "little" then swap_bytes_16 w else w

/-- `_read_u32_from_regs`: mask both words, byte-swap each when
`byte_order == "little"`, reverse the two-word sequence when
`word_order == "little"`, then compose `(words[0] << 16) | words[1]`. -/
def read_u32_from_regs (word_order byte_order : String) (regs : List Nat) (idx : Nat) : Nat :=
  let w0 := (regs.getD idx 0) &&& 0xFFFF
  let w1 := (regs.getD (idx + 1) 0) &&& 0xFFFF
  let w0 := if byte_order = "little" then swap_bytes_16 w0 else w0
  let w1 := if byte_order = "little" then swap_bytes_16 w1 else w1
  let words := if word_order = "little" then [w1, w0] else [w0, w1]
  (((words.getD 0 0) &&& 0xFFFF) <<< 16) ||| ((words.getD 1 0) &&& 0xFFFF)

/-- Spec-side reference decoder, following the spec's words for the u32
decode of a 2-word signal: decode each word independently per
`byte_order` (little swaps the two bytes of the word), order the two
decoded words per `word_order` (little reverses the word sequence), then
compose as `(high <<< 16) ||| low`.  Stated to be compared with
`read_u32_from_regs`, the decoder translated from the source. -/
def decode_u32_spec (word_order byte_order : String) (w0 w1 : Nat) : Nat :=
  let a := if byte_order = "little" then swap_bytes_16 (w0 &&& 0xFFFF) else w0 &&& 0xFFFF
  let b := if byte_order = "little" then swap_bytes_16 (w1 &&& 0xFFFF) else w1 &&& 0xFFFF
  let high := if word_order = "little" then b else a
  let low := if word_order = "little" then a else b
  ((high &&& 0xFFFF) <<< 16) ||| (low &&& 0xFFFF)

/-- A schema-dictionary value classified by whether Python `int(v)`
succeeds: `ok n` when it converts to `n`, `bad` when it raises. -/
inductive IVal where
  | ok (n : Int)
  | bad
  deriving DecidableEq, Repr

/-- A schema-dictionary value classified by whether Python `float(v)`
succeeds (floats are modelled as rationals). -/
inductive FVal where
  | ok (q : Rat)
  | bad
  deriving DecidableEq, Repr

/-- One signal dictionary as stored by the driver: the raw `dict`, with
possibly missing (`none`) or non-convertible numeric fields. -/
structure RawSignal where
  name : String
  address : Option IVal := none
  length : Option IVal := none
  scale : Option FVal := none
  unit : String := ""
  priority : Option IVal := none
  deriving DecidableEq, Repr

/-- `_to_int(s.get(k, dget))`: a missing key yields the `get` default
`dget`, a non-convertible value yields `_to_int`'s own default 0. -/
def getToInt (v : Option IVal) (dget : Int) : Int :=
  match v with
  | none => dget
  | some (.ok n) => n
  | some .bad => 0

/-- `_to_float(s.get(k, dget))`: a missing key yields the `get` default
`dget`, a non-convertible value yields `_to_float`'s default 1.0. -/
def getToFloat (v : Option FVal) (dget : Rat) : Rat :=
  match v with
  | none => dget
  | some (.ok q) => q
  | some .bad => 1

/-- `addr = _to_int(s.get("address", 0))` in `_read_signals_once`. -/
def readAddr (s : RawSignal) : Int := getToInt s.address 0

/-- `leng = _to_int(s.get("length", 0))` in `_read_signals_once`. -/
def readLen (s : RawSignal) : Int := getToInt s.length 0

/-- `prio = _to_int(s.get("priority", 1))` in `_read_signals_once`. -/
def readPrio (s : RawSignal) : Int := getToInt s.priority 1

/-- `scale = _to_float(s.get("scale", 1.0))` in `_read_signals_once`. -/
def readScale (s : RawSignal) : Rat := getToFloat s.scale 1

/-- `int(s.get("length", 0))` in `configure`: the exception raised by a
non-convertible value propagates to the outer handler. -/
def cfgLen (s : RawSignal) : Except Unit Int :=
  match s.length with
  | none => .ok 0
  | some (.ok n) => .ok n
  | some .bad => .error ()

/-- `int(s.get("address", -1))` in `configure`. -/
def cfgAddr (s : RawSignal) : Except Unit Int :=
  match s.address with
  | none => .ok (-1)
  | some (.ok n) => .ok n
  | some .bad => .error ()

/-- The keep condition of `configure`'s filter: `leng > 0 and addr >= 0`
(false when either conversion would raise, so it can serve as the
predicate of `List.filter` on runs where no conversion raises). -/
def goodSig (s : RawSignal) : Bool :=
  match cfgLen s, cfgAddr s with
  | .ok l, .ok a => decide (l > 0 ∧ a ≥ 0)
  | _, _ => false

/-- The `for s in dschema["signals"]` filtering loop of `configure`:
keeps, in order, the entries with `leng > 0 and addr >= 0`; a
conversion exception aborts the whole `configure`. -/
def filterSignals : List RawSignal → Except Unit (List RawSignal)
  | [] => .ok []
  | s :: rest =>
    match cfgLen s with
    | .error e => .error e
    | .ok l =>
      match cfgAddr s with
      | .error e => .error e
      | .ok a =>
        match filterSignals rest with
        | .error e => .error e
        | .ok tail => .ok (if l > 0 ∧ a ≥ 0 then s :: tail else tail)

/-- The decode/schema options and descriptor list held by the driver. -/
structure TCPConfig where
  word_order : String := "big"
  byte_order : String := "big"
  address_limit : Option Int := none
  signals : List RawSignal := []
  deriving DecidableEq, Repr

/-- The `dschema` dictionary passed to `configure` (after the optional
`"schema"` unwrapping): each key may be absent.  For `address_limit`,
`some none` models the key present with value `None` and
`some (some v)` the key present with value `v`, where `int(v)` may
raise.  `signals = none` covers both an absent key and a non-list
value, which the source skips alike. -/
structure SchemaDict where
  word_order : Option String := none
  byte_order : Option String := none
  address_limit : Option (Option IVal) := none
  signals : Option (List RawSignal) := none

/-- The `signals` block of `configure`: replace the stored list with
the fully built filtered list, or leave it untouched when the filter
loop raised. -/
def configureSignals (st : TCPConfig) : Option (List RawSignal) → Bool × TCPConfig
  | none => (true, st)
  | some raws =>
    match filterSignals raws with
    | .ok fs => (true, { st with signals := fs })
    | .error _ => (false, st)

/-- The `word_order` update of `configure`:
`str(dschema.get("word_order", ...)).lower()` when the key is
present. -/
def setWordOrder (st : TCPConfig) : Option String → TCPConfig
  | some w => { st with word_order := w.toLower }
  | none => st

/-- The `byte_order` update of `configure`. -/
def setByteOrder (st : TCPConfig) : Option String → TCPConfig
  | some b => { st with byte_order := b.toLower }
  | none => st

/-- `configure`: applies the field updates in source order
(`word_order`, `byte_order`, `address_limit`, `signals`); an `int()`
exception is caught by the outer handler, which returns `False` with
the state as mutated so far. -/
def configure (st : TCPConfig) (sch : SchemaDict) : Bool × TCPConfig :=
  let st2 := setByteOrder (setWordOrder st sch.word_order) sch.byte_order
  match sch.address_limit with
  | some (some .bad) => (false, st2)
  | some (some (.ok n)) => configureSignals { st2 with address_limit := some n } sch.signals
  | some none => configureSignals { st2 with address_limit := none } sch.signals
  | none => configureSignals st2 sch.signals

/-- The two register banks: holding registers (primary bank, function
code 3) and input registers (secondary bank, function code 4). -/
inductive Bank where
  | hr
  | ir
  deriving DecidableEq, Repr

/-- One read request issued to the pymodbus client. -/
structure Request where
  bank : Bank
  addr : Int
  count : Int
  deriving DecidableEq, Repr

/-- The pymodbus client as an oracle: a request either fails (`none`
covers a `None` result, an `ExceptionResponse` and an `isError()`
response alike) or returns the response's register words. -/
abbrev Env : Type := Bank → Int → Int → Option (List Nat)

/-- `_one_round` of `_read_exact`: the holding-register read, then on
failure the input-register read.  Also records the requests issued. -/
def one_round (env : Env) (a l : Int) : Option (List Nat) × List Request :=
  match env .hr a l with
  | some regs => (some regs, [⟨.hr, a, l⟩])
  | none =>
    match env .ir a l with
    | some regs => (some regs, [⟨.hr, a, l⟩, ⟨.ir, a, l⟩])
    | none => (none, [⟨.hr, a, l⟩, ⟨.ir, a, l⟩])

/-- `_read_exact`: one round, and — only when `retry` is set — one
further round after a failed first round (the 10 ms backoff sleep is
not modelled).  Every caller in `_read_signals_once` leaves `retry` at
its default `False`. -/
def read_exact (env : Env) (a l : Int) (retry : Bool) : Option (List Nat) × List Request :=
  match one_round env a l with
  | (some regs, q) => (some regs, q)
  | (none, q) =>
    if retry then
      let (r2, q2) := one_round env a l
      (r2, q ++ q2)
    else (none, q)

/-- The log lines the driver can emit while reading one signal. -/
inductive LogEvent where
  | skipOutOfRange (name : String) (addr limit : Int)
  | readFail (addr leng : Int)
  | skipShort (name : String) (need : Int) (got : Nat)
  | skipUnsupported (name : String) (leng : Int)
  deriving DecidableEq, Repr

/-- The reading payload yielded for one signal (the `_src` sub-dict of
the source repeats the `host`/`port` fields and is represented by
them). -/
structure Payload where
  timestamp : Rat
  source : String
  driver_id : String
  unit_id : Int
  host : String
  port : Int
  name : String
  value : Rat
  unit : String
  priority : Int
  deriving DecidableEq, Repr

/-- The per-cycle context: the timestamp and the identification fields
copied into every payload of the cycle. -/
structure Ctx where
  ts : Rat
  src : String
  driver_id : String
  unit_id : Int
  host : String
  port : Int
  deriving DecidableEq, Repr

/-- The payload dictionary yielded on success. -/
def mkPayload (ctx : Ctx) (s : RawSignal) (value : Rat) : Payload :=
  { timestamp := ctx.ts, source := ctx.src, driver_id := ctx.driver_id,
    unit_id := ctx.unit_id, host := ctx.host, port := ctx.port,
    name := s.name, value := value, unit := s.unit, priority := readPrio s }

/-- Everything `_read_signals_once` does for one signal: the payload it
yields (if any), the I/O requests issued, and the log lines emitted. -/
structure SigOutcome where
  payload : Option Payload
  requests : List Request
  logs : List LogEvent
  deriving DecidableEq, Repr

/-- The boundary guard of `_read_signals_once`: with `address_limit`
set, a 1-word signal is skipped unless `0 <= addr <= limit` and a
2-word signal unless `0 <= addr` and `addr + 1 <= limit`. -/
def guardSkip (limit : Option Int) (addr leng : Int) : Bool :=
  match limit with
  | none => false
  | some L =>
    decide (leng = 1 ∧ ¬ (0 ≤ addr ∧ addr ≤ L))
      || decide (leng = 2 ∧ ¬ (0 ≤ addr ∧ addr + 1 ≤ L))

/-- The loop body of `_read_signals_once` for one signal. -/
def processSignal (wo bo : String) (limit : Option Int) (env : Env) (ctx : Ctx)
    (s : RawSignal) : SigOutcome :=
  let name := s.name
  let addr := readAddr s
  let leng := readLen s
  let scale := readScale s
  if guardSkip limit addr leng then
    ⟨none, [], [.skipOutOfRange name addr (limit.getD 0)]⟩
  else if leng = 1 then
    match read_exact env addr 1 false with
    | (none, qs) => ⟨none, qs, [.readFail addr 1]⟩
    | (some regs, qs) =>
      if regs.length < 1 then ⟨none, qs, [.skipShort name 1 regs.length]⟩
      else ⟨some (mkPayload ctx s ((read_u16_from_regs bo regs 0 : Rat) * scale)), qs, []⟩
  else if leng = 2 then
    match read_exact env addr 2 false with
    | (none, qs) => ⟨none, qs, [.readFail addr 2]⟩
    | (some regs, qs) =>
      if regs.length < 2 then ⟨none, qs, [.skipShort name 2 regs.length]⟩
      else ⟨some (mkPayload ctx s ((read_u32_from_regs wo bo regs 0 : Rat) * scale)), qs, []⟩
  else
    ⟨none, [], [.skipUnsupported name leng]⟩

/-- `_read_signals_once`: the payloads yielded over the signal list, in
schema order. -/
def read_signals_once (wo bo : String) (limit : Option Int) (env : Env) (ctx : Ctx)
    (signals : List RawSignal) : List Payload :=
  signals.filterMap fun s => (processSignal wo bo limit env ctx s).payload

/-- All I/O requests issued during one pass of `_read_signals_once`. -/
def cycleRequests (wo bo : String) (limit : Option Int) (env : Env) (ctx : Ctx)
    (signals : List RawSignal) : List Request :=
  (signals.map fun s => (processSignal wo bo limit env ctx s).requests).foldr (· ++ ·) []

/-- The delivery loop of `start_listen`: each payload of the cycle is
passed to the callback; an exception from the callback is caught and
logged and the loop proceeds to the next payload. -/
def deliverCycle (cb : Payload → Except String Unit) : List Payload → List (Payload × Option String)
  | [] => []
  | p :: ps =>
    match cb p with
    | .ok _ => (p, none) :: deliverCycle cb ps
    | .error e => (p, some e) :: deliverCycle cb ps

/-- The lifecycle fields of the driver touched by `start_listen` and
`stop`: the stop flag, the listening flag, and whether `_client` holds
a client object. -/
structure LifecycleState where
  stop_flag : Bool
  listening : Bool
  clientSet : Bool
  deriving DecidableEq, Repr

/-- Result of running the polling `while` loop: how many cycles were
started, whether the loop exited within the modelled fuel, and whether
it exited through the exception handler. -/
structure LoopResult where
  cycles : Nat
  finished : Bool
  raised : Bool
  deriving DecidableEq, Repr

/-- The `while not self._stop_flag` loop.  `stopAt k` is the value of
the externally set stop flag when the loop condition is checked for the
`k`-th time; `raisesAt k` tells whether cycle `k` raises; `fuel` bounds
the modelled execution. -/
def runLoopAux (stopAt raisesAt : Nat → Bool) : Nat → Nat → LoopResult
  | 0, k => ⟨k, false, false⟩
  | fuel + 1, k =>
    if stopAt k then ⟨k, true, false⟩
    else if raisesAt k then ⟨k + 1, true, true⟩
    else runLoopAux stopAt raisesAt fuel (k + 1)

/-- Observable outcome of one `start_listen` call. -/
structure ListenOutcome where
  state : LifecycleState
  entered : Bool
  cycles : Nat
  finishedLoop : Bool
  deriving DecidableEq, Repr

/-- `start_listen`: the re-entry guard, the stop-flag reset, the client
construction and `connect()` (`connectOK` tells whether it succeeds),
the polling loop, and the `finally` release — close the client, clear
`_client`, clear `_listening` — which runs also when the loop body
raised. -/
def start_listen (st : LifecycleState) (connectOK : Bool)
    (stopAt raisesAt : Nat → Bool) (fuel : Nat) : ListenOutcome :=
  if st.listening then ⟨st, false, 0, false⟩
  else
    let st1 : LifecycleState := { st with stop_flag := false, clientSet := true }
    if connectOK = false then ⟨st1, false, 0, false⟩
    else
      let stL : LifecycleState := { st1 with listening := true }
      let r := runLoopAux stopAt raisesAt fuel 0
      ⟨{ stL with clientSet := false, listening := false }, true, r.cycles, r.finished⟩

/-- `stop`: sets the stop flag (and nothing else). -/
def stop (st : LifecycleState) : LifecycleState := { st with stop_flag := true }

/-- An oracle on which every read fails. -/
def envFail : Env := fun _ _ _ => none

/-- An oracle whose holding-register reads fail and whose
input-register reads succeed with `count` words `0x1234, 0x5678,
0x1234, ...`. -/
def envIROnly : Env := fun b _ l =>
  match b with
  | .hr => none
  | .ir => some ((List.range l.toNat).map fun i => if i % 2 = 0 then 0x1234 else 0x5678)

/-- An oracle whose holding-register reads succeed but return only a
single word — a short response — while its input-register reads succeed
with the full `count` words. -/
def envShortHR : Env := fun b _ l =>
  match b with
  | .hr => some [0x1234]
  | .ir => some ((List.range l.toNat).map fun i => if i % 2 = 0 then 0x1234 else 0x5678)

/-- A concrete cycle context for witnesses. -/
def ctx0 : Ctx :=
  { ts := 0, src := "127.0.0.1:502", driver_id := "modbus_tcp_502",
    unit_id := 1, host := "127.0.0.1", port := 502 }

/-- A concrete 1-word signal at address 0. -/
def sigLen1 : RawSignal :=
  { name := "s1", address := some (.ok 0), length := some (.ok 1) }

/-- A concrete 2-word signal at address 6. -/
def sigAddr6Len2 : RawSignal :=
  { name := "s62", address := some (.ok 6), length := some (.ok 2) }

/-- A concrete 2-word signal at address 7. -/
def sigAddr7Len2 : RawSignal :=
  { name := "s72", address := some (.ok 7), length := some (.ok 2) }

/-- A concrete signal with a negative address (dropped by
`configure`). -/
def sigBadAddr : RawSignal :=
  { name := "neg", address := some (.ok (-3)), length := some (.ok 1) }

/-- A concrete signal with the unsupported length 3. -/
def sigLen3 : RawSignal :=
  { name := "u3", address := some (.ok 0), length := some (.ok 3) }

end ModbusTCP

namespace ModbusRTU

/-- One entry of the RTU `signal_map` (`signal_config.json`); `length`,
`scale`, `offset` may be absent, with `get` defaults 1, 1, 0. -/
structure RTUSignal where
  name : String
  address : Int
  length : Option Int := none
  scale : Option Rat := none
  offset : Option Rat := none
  deriving DecidableEq, Repr

/-- `item["address"] + item.get("length", 1)`. -/
def sigEnd (s : RTUSignal) : Int := s.address + s.length.getD 1

/-- `read_end_address = max(item["address"] + item.get("length", 1) for
item in signal_map)` as computed by `configure`; Python `max()` raises
on an empty sequence, modelled as `none`. -/
def read_end_address : List RTUSignal → Option Int
  | [] => none
  | s :: rest =>
    match read_end_address rest with
    | none => some (sigEnd s)
    | some m => some (max (sigEnd s) m)

/-- The requests issued by one cycle of `_run_loop`: a single
holding-register read of `count = read_end_address - read_start_address
+ 1` registers starting at `read_start_address`. -/
def rtu_cycle_requests (start endAddr : Int) : List ModbusTCP.Request :=
  [⟨.hr, start, endAddr - start + 1⟩]

/-- A concrete RTU signal occupying registers 3 and 4. -/
def rtuA : RTUSignal := { name := "a", address := 3, length := some 2 }

/-- A concrete RTU signal occupying register 0 (default length 1). -/
def rtuB : RTUSignal := { name := "b", address := 0 }

end ModbusRTU

open ModbusTCP in
/-- C1: decoding the raw words (0x1234, 0x5678) as a 2-word u32 signal
follows the byte-swap / word-reverse / compose pipeline for every
(word_order, byte_order) pair, and in particular yields 0x12345678 for
big/big, 0x56781234 for word little / byte big, 0x34127856 for word big
/ byte little, and 0x78563412 for word little / byte little. -/
theorem u32_decode_all_orders :
    (∀ wo bo w0 w1, read_u32_from_regs wo bo [w0, w1] 0 = decode_u32_spec wo bo w0 w1)
    ∧ read_u32_from_regs "big" "big" [0x1234, 0x5678] 0 = 0x12345678
    ∧ read_u32_from_regs "little" "big" [0x1234, 0x5678] 0 = 0x56781234
    ∧ read_u32_from_regs "big" "little" [0x1234, 0x5678] 0 = 0x34127856
    ∧ read_u32_from_regs "little" "little" [0x1234, 0x5678] 0 = 0x78563412 := by
  refine ⟨fun wo bo w0 w1 => ?_, by decide, by decide, by decide, by decide⟩
  by_cases hb : bo = "little" <;> by_cases hw : wo = "little" <;>
    simp [read_u32_from_regs, decode_u32_spec, hb, hw]

open ModbusTCP

theorem one_round_fail {env : Env} {a l : Int} (h1 : env .hr a l = none)
    (h2 : env .ir a l = none) :
    one_round env a l = (none, [⟨.hr, a, l⟩, ⟨.ir, a, l⟩]) := by
  simp [one_round, h1, h2]

theorem read_exact_false_fail {env : Env} {a l : Int} (h1 : env .hr a l = none)
    (h2 : env .ir a l = none) :
    read_exact env a l false = (none, [⟨.hr, a, l⟩, ⟨.ir, a, l⟩]) := by
  simp [read_exact, one_round_fail h1 h2]

theorem read_exact_false_fallback {env : Env} {a l : Int} {regs : List Nat}
    (h1 : env .hr a l = none) (h2 : env .ir a l = some regs) :
    read_exact env a l false = (some regs, [⟨.hr, a, l⟩, ⟨.ir, a, l⟩]) := by
  simp [read_exact, one_round, h1, h2]

theorem read_exact_requests_ne_nil (env : Env) (a l : Int) (r : Bool) :
    (read_exact env a l r).2 ≠ [] := by
  unfold read_exact one_round
  cases h1 : env .hr a l <;> cases h2 : env .ir a l <;> cases r <;> simp

theorem deliverCycle_map_fst (cb : Payload → Except String Unit) :
    ∀ ps : List Payload, (deliverCycle cb ps).map Prod.fst = ps := by
  intro ps
  induction ps with
  | nil => rfl
  | cons p ps ih => cases h : cb p <;> simp [deliverCycle, h, ih]

theorem processSignal_payload_none_of_fail {env : Env} {s : RawSignal}
    (wo bo : String) (limit : Option Int) (ctx : Ctx)
    (hhr : env .hr (readAddr s) (readLen s) = none)
    (hir : env .ir (readAddr s) (readLen s) = none) :
    (processSignal wo bo limit env ctx s).payload = none := by
  unfold processSignal
  by_cases hg : guardSkip limit (readAddr s) (readLen s) = true
  · simp [hg]
  · rw [Bool.not_eq_true] at hg
    by_cases h1 : readLen s = 1
    · rw [h1] at hhr hir hg
      simp [hg, h1, read_exact_false_fail hhr hir]
    · by_cases h2 : readLen s = 2
      · rw [h2] at hhr hir hg
        simp [hg, h1, h2, read_exact_false_fail hhr hir]
      · simp [hg, h1, h2]

/-- C2: when both bank reads fail for a signal, no reading is emitted
for it in that cycle, the cycle still emits exactly the readings of the
signals before and after it in schema order, and an exception raised by
the callback is caught, so every payload of a cycle is still
delivered. -/
theorem both_banks_fail_skips_signal (wo bo : String) (limit : Option Int) (env : Env)
    (ctx : Ctx) (pre post : List RawSignal) (s : RawSignal)
    (hhr : env .hr (readAddr s) (readLen s) = none)
    (hir : env .ir (readAddr s) (readLen s) = none) :
    (processSignal wo bo limit env ctx s).payload = none
    ∧ read_signals_once wo bo limit env ctx (pre ++ s :: post)
        = read_signals_once wo bo limit env ctx pre
          ++ read_signals_once wo bo limit env ctx post
    ∧ ∀ (cb : Payload → Except String Unit) (ps : List Payload),
        (deliverCycle cb ps).map Prod.fst = ps := by
  have hnone := processSignal_payload_none_of_fail wo bo limit ctx hhr hir
  refine ⟨hnone, ?_, fun cb ps => deliverCycle_map_fst cb ps⟩
  simp [read_signals_once, List.filterMap_append, List.filterMap_cons, hnone]

/-- C2 witness: a failing oracle, a 1-word signal between two others. -/
theorem both_banks_fail_skips_signal_witness :
    (processSignal "big" "big" none envFail ctx0 sigLen1).payload = none
    ∧ read_signals_once "big" "big" none envFail ctx0 ([sigAddr6Len2] ++ sigLen1 :: [sigAddr7Len2])
        = read_signals_once "big" "big" none envFail ctx0 [sigAddr6Len2]
          ++ read_signals_once "big" "big" none envFail ctx0 [sigAddr7Len2]
    ∧ ∀ (cb : Payload → Except String Unit) (ps : List Payload),
        (deliverCycle cb ps).map Prod.fst = ps :=
  both_banks_fail_skips_signal "big" "big" none envFail ctx0 [sigAddr6Len2] [sigAddr7Len2]
    sigLen1 rfl rfl

/-- C3 (amended): when the holding-register read fails with a missing
(`None`), exception, or error response — not with a short but
successful response, which the source treats as a success — and the
input-register read at the identical address and count succeeds with at
least the requested number of words, a reading is emitted whose value
is decoded from the input-register response words. -/
theorem fallback_bank_emits_reading (wo bo : String) (limit : Option Int) (env : Env)
    (ctx : Ctx) (s : RawSignal) (regs : List Nat)
    (hg : guardSkip limit (readAddr s) (readLen s) = false)
    (hhr : env .hr (readAddr s) (readLen s) = none)
    (hir : env .ir (readAddr s) (readLen s) = some regs) :
    (readLen s = 1 → 1 ≤ regs.length →
      (processSignal wo bo limit env ctx s).payload
        = some (mkPayload ctx s ((read_u16_from_regs bo regs 0 : Rat) * readScale s)))
    ∧ (readLen s = 2 → 2 ≤ regs.length →
      (processSignal wo bo limit env ctx s).payload
        = some (mkPayload ctx s ((read_u32_from_regs wo bo regs 0 : Rat) * readScale s))) := by
  constructor
  · intro h1 hlen
    rw [h1] at hhr hir hg
    unfold processSignal
    simp [hg, h1, read_exact_false_fallback hhr hir, Nat.not_lt.mpr hlen]
  · intro h2 hlen
    rw [h2] at hhr hir hg
    unfold processSignal
    simp [hg, h2, read_exact_false_fallback hhr hir, Nat.not_lt.mpr hlen]

/-- C3 witness: the holding-register bank fails, the input-register
bank returns the word 0x1234. -/
theorem fallback_bank_emits_reading_witness :
    (processSignal "big" "big" none envIROnly ctx0 sigLen1).payload
      = some (mkPayload ctx0 sigLen1 ((read_u16_from_regs "big" [0x1234] 0 : Rat) * readScale sigLen1)) :=
  (fallback_bank_emits_reading "big" "big" none envIROnly ctx0 sigLen1 [0x1234]
    rfl rfl rfl).1 rfl (by decide)

/-- C3 counterexample: for a 2-word signal the primary bank returns a
short but successful response (one word) while the secondary bank would
return both words; the source takes the short response as a success and
never consults the secondary bank — the only request issued is the
holding-register one — and skips the signal with a short-response log,
so no reading is emitted, refuting the claim for its missing/short
failure mode. -/
theorem short_primary_no_fallback :
    envShortHR .hr 6 2 = some [0x1234]
    ∧ envShortHR .ir 6 2 = some [0x1234, 0x5678]
    ∧ (processSignal "big" "big" none envShortHR ctx0 sigAddr6Len2).payload = none
    ∧ (processSignal "big" "big" none envShortHR ctx0 sigAddr6Len2).requests = [⟨.hr, 6, 2⟩]
    ∧ (processSignal "big" "big" none envShortHR ctx0 sigAddr6Len2).logs
        = [.skipShort sigAddr6Len2.name 2 1] :=
  ⟨rfl, rfl, rfl, rfl, rfl⟩

theorem guardSkip_eq_false_iff (L a l : Int) (hpos : 0 ≤ a) (hl : l = 1 ∨ l = 2) :
    guardSkip (some L) a l = false ↔ a + l - 1 ≤ L := by
  rcases hl with rfl | rfl <;> simp [guardSkip] <;> omega

theorem processSignal_guard_skip (wo bo : String) (limit : Option Int) (env : Env)
    (ctx : Ctx) (s : RawSignal)
    (hg : guardSkip limit (readAddr s) (readLen s) = true) :
    processSignal wo bo limit env ctx s
      = ⟨none, [], [.skipOutOfRange s.name (readAddr s) (limit.getD 0)]⟩ := by
  unfold processSignal
  simp [hg]

theorem processSignal_requests_of_len (wo bo : String) (limit : Option Int) (env : Env)
    (ctx : Ctx) (s : RawSignal)
    (hg : guardSkip limit (readAddr s) (readLen s) = false)
    (hl : readLen s = 1 ∨ readLen s = 2) :
    (processSignal wo bo limit env ctx s).requests
      = (read_exact env (readAddr s) (readLen s) false).2 := by
  rcases hl with h | h <;>
    (rw [h] at hg
     unfold processSignal
     rcases hre : read_exact env (readAddr s) (readLen s) false with ⟨r, qs⟩
     rw [h] at hre
     cases r with
     | none => simp [hg, h, hre]
     | some regs =>
       by_cases hshort : regs.length < 2
       · by_cases hshort1 : regs.length < 1 <;> simp [hg, h, hre, hshort, hshort1]
       · have h1 : ¬ regs.length < 1 := by omega
         simp [hg, h, hre, hshort, h1])

/-- C4: with `address_limit` set, a signal of length 1 or 2 with a
nonnegative address is read — at least one I/O request is issued — iff
its last occupied offset lies within the inclusive limit; an
out-of-range signal is skipped with an out-of-range log, no I/O and no
reading. -/
theorem address_limit_guard (wo bo : String) (L : Int) (env : Env) (ctx : Ctx)
    (s : RawSignal) (hpos : 0 ≤ readAddr s) (hl : readLen s = 1 ∨ readLen s = 2) :
    ((processSignal wo bo (some L) env ctx s).requests ≠ []
      ↔ readAddr s + readLen s - 1 ≤ L)
    ∧ (L < readAddr s + readLen s - 1 →
        (processSignal wo bo (some L) env ctx s).requests = []
        ∧ (processSignal wo bo (some L) env ctx s).payload = none
        ∧ (processSignal wo bo (some L) env ctx s).logs
            = [.skipOutOfRange s.name (readAddr s) L]) := by
  have key := guardSkip_eq_false_iff L (readAddr s) (readLen s) hpos hl
  by_cases hin : readAddr s + readLen s - 1 ≤ L
  · have hg : guardSkip (some L) (readAddr s) (readLen s) = false := key.mpr hin
    have hreq := processSignal_requests_of_len wo bo (some L) env ctx s hg hl
    refine ⟨⟨fun _ => hin, fun _ => ?_⟩, fun hout => absurd hin (by omega)⟩
    rw [hreq]
    exact read_exact_requests_ne_nil env _ _ false
  · have hg : guardSkip (some L) (readAddr s) (readLen s) = true := by
      cases hgb : guardSkip (some L) (readAddr s) (readLen s) with
      | false => exact absurd (key.mp hgb) hin
      | true => rfl
    have hps := processSignal_guard_skip wo bo (some L) env ctx s hg
    refine ⟨⟨fun hne => ?_, fun h => absurd h hin⟩, fun _ => ?_⟩
    · rw [hps] at hne
      simp at hne
    · rw [hps]
      simp

/-- C4 witness: with `address_limit = 7`, the signal at address 6 of
length 2 is polled and the one at address 7 of length 2 is skipped. -/
theorem address_limit_guard_witness :
    (processSignal "big" "big" (some 7) envFail ctx0 sigAddr6Len2).requests ≠ []
    ∧ (processSignal "big" "big" (some 7) envFail ctx0 sigAddr7Len2).requests = [] := by
  constructor
  · exact (address_limit_guard "big" "big" 7 envFail ctx0 sigAddr6Len2 (by decide)
      (Or.inr rfl)).1.mpr (by decide)
  · exact ((address_limit_guard "big" "big" 7 envFail ctx0 sigAddr7Len2 (by decide)
      (Or.inr rfl)).2 (by decide)).1

/-- C5 counterexample: with every read failing, one polling-loop
attempt at a length-1 signal issues exactly one holding-register and
one input-register request and nothing more — the retry round required
by the claim never happens, because `_read_signals_once` calls
`_read_exact` with the default `retry=False`. -/
theorem no_retry_in_polling_loop :
    (processSignal "big" "big" none envFail ctx0 sigLen1).requests
      = [⟨.hr, 0, 1⟩, ⟨.ir, 0, 1⟩] := by
  rfl

/-- C5 amended: `_read_exact` performs at most one retry of the full
primary-then-secondary round, and only when invoked with `retry=True`;
the polling loop invokes it with the default `retry=False`, so a failed
signal gets exactly one holding-register and one input-register attempt
per cycle, with no retry. -/
theorem read_exact_retry_bound (env : Env) (a l : Int) :
    (read_exact env a l false).2 = (one_round env a l).2
    ∧ ((one_round env a l).1 = none →
        (read_exact env a l true).2 = (one_round env a l).2 ++ (one_round env a l).2)
    ∧ ((one_round env a l).1 ≠ none →
        read_exact env a l true = one_round env a l)
    ∧ ∀ (wo bo : String) (limit : Option Int) (ctx : Ctx) (s : RawSignal),
        guardSkip limit (readAddr s) (readLen s) = false →
        (readLen s = 1 ∨ readLen s = 2) →
        (processSignal wo bo limit env ctx s).requests
          = (read_exact env (readAddr s) (readLen s) false).2 := by
  refine ⟨?_, ?_, ?_, fun wo bo limit ctx s hg hl =>
    processSignal_requests_of_len wo bo limit env ctx s hg hl⟩
  all_goals
    rcases h : one_round env a l with ⟨r, q⟩
    cases r <;> simp [read_exact, h]

/-- C5 amended witness: on an all-failing oracle, `retry=True` yields
exactly one extra round. -/
theorem read_exact_retry_bound_witness :
    (read_exact envFail 0 1 true).2
      = (one_round envFail 0 1).2 ++ (one_round envFail 0 1).2 :=
  (read_exact_retry_bound envFail 0 1).2.1 rfl

theorem runLoopAux_le (stopAt raisesAt : Nat → Bool) :
    ∀ fuel k n, stopAt n = true → k ≤ n → n - k < fuel →
      (runLoopAux stopAt raisesAt fuel k).cycles ≤ n
      ∧ (runLoopAux stopAt raisesAt fuel k).finished = true := by
  intro fuel
  induction fuel with
  | zero => intro k n _ _ h; omega
  | succ fuel ih =>
    intro k n hn hk hf
    cases hs : stopAt k with
    | true =>
      constructor <;> simp [runLoopAux, hs]
      exact hk
    | false =>
      have hkn : k < n := by
        cases Nat.eq_or_lt_of_le hk with
        | inl he =>
          rw [he, hn] at hs
          cases hs
        | inr h => exact h
      cases hr : raisesAt k with
      | true =>
        constructor <;> simp [runLoopAux, hs, hr]
        omega
      | false =>
        have := ih (k + 1) n hn hkn (by omega)
        simpa [runLoopAux, hs, hr] using this

/-- C6: if the stop flag is set by the `n`-th check of the loop
condition, the loop runs at most `n` cycles and exits, and the
`finally` release leaves the client closed and cleared and the
listening flag false — whatever the raise behaviour of the cycles; and
`stop()` is exactly the setting of that flag. -/
theorem stop_observed_then_release (st : LifecycleState) (stopAt raisesAt : Nat → Bool)
    (fuel n : Nat) (hL : st.listening = false) (hstop : stopAt n = true) (hfuel : n < fuel) :
    (start_listen st true stopAt raisesAt fuel).entered = true
    ∧ (start_listen st true stopAt raisesAt fuel).cycles ≤ n
    ∧ (start_listen st true stopAt raisesAt fuel).finishedLoop = true
    ∧ (start_listen st true stopAt raisesAt fuel).state.listening = false
    ∧ (start_listen st true stopAt raisesAt fuel).state.clientSet = false
    ∧ (stop st).stop_flag = true := by
  have h := runLoopAux_le stopAt raisesAt fuel 0 n hstop (Nat.zero_le n) (by omega)
  have hsl : start_listen st true stopAt raisesAt fuel
      = ⟨⟨false, false, false⟩, true, (runLoopAux stopAt raisesAt fuel 0).cycles,
         (runLoopAux stopAt raisesAt fuel 0).finished⟩ := by
    simp [start_listen, hL]
  rw [hsl]
  exact ⟨rfl, h.1, h.2, rfl, rfl, rfl⟩

/-- C6 witness: stop observed at the third check of a five-fuel run. -/
theorem stop_observed_then_release_witness :
    (start_listen ⟨true, false, true⟩ true (fun k => decide (2 ≤ k)) (fun _ => false) 5).entered = true
    ∧ (start_listen ⟨true, false, true⟩ true (fun k => decide (2 ≤ k)) (fun _ => false) 5).cycles ≤ 2
    ∧ (start_listen ⟨true, false, true⟩ true (fun k => decide (2 ≤ k)) (fun _ => false) 5).finishedLoop = true
    ∧ (start_listen ⟨true, false, true⟩ true (fun k => decide (2 ≤ k)) (fun _ => false) 5).state.listening = false
    ∧ (start_listen ⟨true, false, true⟩ true (fun k => decide (2 ≤ k)) (fun _ => false) 5).state.clientSet = false
    ∧ (stop ⟨true, false, true⟩).stop_flag = true :=
  stop_observed_then_release ⟨true, false, true⟩ (fun k => decide (2 ≤ k)) (fun _ => false) 5 2
    rfl (by decide) (by decide)

/-- C7: calling `start_listen` while the instance is already listening
returns immediately with the state unchanged — the stop flag is not
cleared, no client is created, and the loop is not entered. -/
theorem start_listen_reentry_noop (st : LifecycleState) (connectOK : Bool)
    (stopAt raisesAt : Nat → Bool) (fuel : Nat) (h : st.listening = true) :
    start_listen st connectOK stopAt raisesAt fuel = ⟨st, false, 0, false⟩ := by
  simp [start_listen, h]

/-- C7 witness: re-entry on a listening driver with the stop flag
clear. -/
theorem start_listen_reentry_noop_witness :
    start_listen ⟨false, true, true⟩ true (fun _ => true) (fun _ => false) 3
      = ⟨⟨false, true, true⟩, false, 0, false⟩ :=
  start_listen_reentry_noop ⟨false, true, true⟩ true (fun _ => true) (fun _ => false) 3 rfl

theorem setWordOrder_signals (st : TCPConfig) (w : Option String) :
    (setWordOrder st w).signals = st.signals := by
  cases w <;> rfl

theorem setByteOrder_signals (st : TCPConfig) (b : Option String) :
    (setByteOrder st b).signals = st.signals := by
  cases b <;> rfl

theorem configureSignals_of_filter {st : TCPConfig} {raws fs : List RawSignal}
    (h : filterSignals raws = .ok fs) :
    configureSignals st (some raws) = (true, { st with signals := fs }) := by
  simp [configureSignals, h]

theorem configureSignals_fail {st : TCPConfig} {o : Option (List RawSignal)}
    (h : (configureSignals st o).1 = false) :
    (configureSignals st o).2.signals = st.signals := by
  cases o with
  | none => rfl
  | some raws =>
    cases hfe : filterSignals raws with
    | ok fs =>
      rw [configureSignals_of_filter hfe] at h
      cases h
    | error e => simp [configureSignals, hfe]

theorem filterSignals_ok (raws : List RawSignal)
    (h : ∀ s ∈ raws, s.length ≠ some IVal.bad ∧ s.address ≠ some IVal.bad) :
    filterSignals raws = .ok (raws.filter goodSig) := by
  induction raws with
  | nil => rfl
  | cons s rest ih =>
    have hs := h s (List.mem_cons_self s rest)
    have hrest := ih fun t ht => h t (List.mem_cons_of_mem s ht)
    obtain ⟨l, hl⟩ : ∃ l, cfgLen s = .ok l := by
      unfold cfgLen
      rcases hv : s.length with _ | v
      · exact ⟨0, rfl⟩
      · cases v with
        | ok n => exact ⟨n, rfl⟩
        | bad => exact absurd hv hs.1
    obtain ⟨a, ha⟩ : ∃ a, cfgAddr s = .ok a := by
      unfold cfgAddr
      rcases hv : s.address with _ | v
      · exact ⟨-1, rfl⟩
      · cases v with
        | ok n => exact ⟨n, rfl⟩
        | bad => exact absurd hv hs.2
    have hgood : goodSig s = decide (l > 0 ∧ a ≥ 0) := by
      unfold goodSig
      rw [hl, ha]
    by_cases hc : l > 0 ∧ a ≥ 0 <;>
      simp [filterSignals, hl, ha, hrest, List.filter_cons, hgood, hc]

/-- C8: whenever the signals entry is a list and every entry's length
and address convert, `configure` succeeds and stores exactly the
descriptors with positive length and nonnegative address, in their
original order; and whenever `configure` fails partway (a
non-convertible field), the previously stored descriptor list is
unchanged. -/
theorem configure_filters_atomically (st : TCPConfig) (sch : SchemaDict)
    (raws : List RawSignal) (hs : sch.signals = some raws) :
    ((∀ s ∈ raws, s.length ≠ some IVal.bad ∧ s.address ≠ some IVal.bad) →
      sch.address_limit ≠ some (some IVal.bad) →
      (configure st sch).1 = true ∧ (configure st sch).2.signals = raws.filter goodSig)
    ∧ ((configure st sch).1 = false → (configure st sch).2.signals = st.signals) := by
  have hbase : (setByteOrder (setWordOrder st sch.word_order) sch.byte_order).signals
      = st.signals := by
    rw [setByteOrder_signals, setWordOrder_signals]
  constructor
  · intro hall hal
    have hfs := filterSignals_ok raws hall
    rcases hav : sch.address_limit with _ | al2
    · simp [configure, hav, hs, configureSignals_of_filter hfs, hbase]
    · rcases al2 with _ | v
      · simp [configure, hav, hs, configureSignals_of_filter hfs, hbase]
      · cases v with
        | ok n => simp [configure, hav, hs, configureSignals_of_filter hfs, hbase]
        | bad => exact absurd hav hal
  · intro hfail
    rcases hav : sch.address_limit with _ | al2
    · unfold configure at hfail ⊢
      rw [hav] at hfail ⊢
      rw [configureSignals_fail hfail, hbase]
    · rcases al2 with _ | v
      · unfold configure at hfail ⊢
        rw [hav] at hfail ⊢
        rw [configureSignals_fail hfail]
        simp [hbase]
      · cases v with
        | ok n =>
          unfold configure at hfail ⊢
          rw [hav] at hfail ⊢
          rw [configureSignals_fail hfail]
          simp [hbase]
        | bad =>
          unfold configure
          rw [hav]
          exact hbase

/-- C8 witness: a good and a bad descriptor; the bad one (negative
address) is dropped, the good one kept, and `configure` succeeds. -/
theorem configure_filters_atomically_witness :
    (configure { signals := [sigLen1] } { signals := some [sigAddr6Len2, sigBadAddr] }).1 = true
    ∧ (configure { signals := [sigLen1] } { signals := some [sigAddr6Len2, sigBadAddr] }).2.signals
        = [sigAddr6Len2, sigBadAddr].filter goodSig :=
  (configure_filters_atomically { signals := [sigLen1] }
    { signals := some [sigAddr6Len2, sigBadAddr] } [sigAddr6Len2, sigBadAddr] rfl).1
    (by decide) (by decide)

theorem read_end_address_cons_ne_none (x : ModbusRTU.RTUSignal) (xs : List ModbusRTU.RTUSignal) :
    ModbusRTU.read_end_address (x :: xs) ≠ none := by
  unfold ModbusRTU.read_end_address
  cases ModbusRTU.read_end_address xs <;> simp

theorem read_end_address_bound :
    ∀ (sm : List ModbusRTU.RTUSignal) (e : Int), ModbusRTU.read_end_address sm = some e →
      ∀ s ∈ sm, ModbusRTU.sigEnd s ≤ e := by
  intro sm
  induction sm with
  | nil =>
    intro e he
    cases he
  | cons s rest ih =>
    intro e he t ht
    unfold ModbusRTU.read_end_address at he
    cases hr : ModbusRTU.read_end_address rest with
    | none =>
      rw [hr] at he
      rcases rest with _ | ⟨x, xs⟩
      · rcases List.mem_singleton.mp ht with rfl
        simp only [Option.some.injEq] at he
        omega
      · exact absurd hr (read_end_address_cons_ne_none x xs)
    | some m =>
      rw [hr] at he
      simp only [Option.some.injEq] at he
      rcases List.mem_cons.mp ht with rfl | hmem
      · have : ModbusRTU.sigEnd t ≤ max (ModbusRTU.sigEnd t) m := le_max_left _ _
        omega
      · have h1 := ih m hr t hmem
        have : m ≤ max (ModbusRTU.sigEnd s) m := le_max_right _ _
        omega

/-- C9: one cycle of the RTU loop issues exactly one holding-register
request, spanning the configured start address through the end address
inclusive (`count = end - start + 1`), and the end address computed by
`configure` as `max(address + length)` bounds the registers of every
configured signal, so the single wide read covers all of them when the
start address does not exceed a signal's address. -/
theorem rtu_single_wide_read (sm : List ModbusRTU.RTUSignal) (start e : Int)
    (he : ModbusRTU.read_end_address sm = some e) :
    ModbusRTU.rtu_cycle_requests start e = [⟨.hr, start, e - start + 1⟩]
    ∧ (ModbusRTU.rtu_cycle_requests start e).length = 1
    ∧ (∀ s ∈ sm, ModbusRTU.sigEnd s ≤ e)
    ∧ (∀ s ∈ sm, start ≤ s.address →
        s.address + s.length.getD 1 - 1 ≤ start + (e - start + 1) - 1) := by
  refine ⟨rfl, rfl, read_end_address_bound sm e he, fun s hmem _ => ?_⟩
  have h := read_end_address_bound sm e he s hmem
  unfold ModbusRTU.sigEnd at h
  omega

/-- C9 witness: two signals ending at register 4; the wide read spans
0..5 in one request. -/
theorem rtu_single_wide_read_witness :
    ModbusRTU.rtu_cycle_requests 0 5 = [⟨.hr, 0, 5 - 0 + 1⟩]
    ∧ (ModbusRTU.rtu_cycle_requests 0 5).length = 1
    ∧ (∀ s ∈ [ModbusRTU.rtuA, ModbusRTU.rtuB], ModbusRTU.sigEnd s ≤ 5)
    ∧ (∀ s ∈ [ModbusRTU.rtuA, ModbusRTU.rtuB], (0 : Int) ≤ s.address →
        s.address + s.length.getD 1 - 1 ≤ 0 + (5 - 0 + 1) - 1) :=
  rtu_single_wide_read [ModbusRTU.rtuA, ModbusRTU.rtuB] 0 5 rfl

/-- C10: every descriptor with a nonnegative address and a positive
length outside {1, 2} survives `configure`'s filter, yet every cycle
skips it before any I/O with an unsupported-length log: no request is
issued for it and no reading is emitted. -/
theorem unsupported_length_kept_but_never_read (wo bo : String) (limit : Option Int)
    (env : Env) (ctx : Ctx) (s : RawSignal) (a l : Int)
    (hlen : s.length = some (IVal.ok l)) (hl0 : 0 < l) (hl1 : l ≠ 1) (hl2 : l ≠ 2)
    (haddr : s.address = some (IVal.ok a)) (ha : 0 ≤ a) :
    goodSig s = true
    ∧ (∀ raws : List RawSignal, s ∈ raws → s ∈ raws.filter goodSig)
    ∧ (processSignal wo bo limit env ctx s).payload = none
    ∧ (processSignal wo bo limit env ctx s).requests = []
    ∧ (processSignal wo bo limit env ctx s).logs = [.skipUnsupported s.name l] := by
  have hg : goodSig s = true := by
    unfold goodSig cfgLen cfgAddr
    rw [hlen, haddr]
    simp
    omega
  have hread : readLen s = l := by
    simp [readLen, getToInt, hlen]
  have hguard : guardSkip limit (readAddr s) (readLen s) = false := by
    cases limit <;> simp [guardSkip, hread, hl1, hl2]
  have hps : processSignal wo bo limit env ctx s
      = ⟨none, [], [.skipUnsupported s.name l]⟩ := by
    unfold processSignal
    rw [hread] at hguard
    simp [hguard, hread, hl1, hl2]
  exact ⟨hg, fun raws hm => List.mem_filter.mpr ⟨hm, hg⟩,
    by rw [hps], by rw [hps], by rw [hps]⟩

/-- C10 witness: the concrete length-3 signal at address 0. -/
theorem unsupported_length_kept_but_never_read_witness :
    goodSig sigLen3 = true
    ∧ (∀ raws : List RawSignal, sigLen3 ∈ raws → sigLen3 ∈ raws.filter goodSig)
    ∧ (processSignal "big" "big" (some 7) envFail ctx0 sigLen3).payload = none
    ∧ (processSignal "big" "big" (some 7) envFail ctx0 sigLen3).requests = []
    ∧ (processSignal "big" "big" (some 7) envFail ctx0 sigLen3).logs
        = [.skipUnsupported sigLen3.name 3] :=
  unsupported_length_kept_but_never_read "big" "big" (some 7) envFail ctx0 sigLen3 0 3
    rfl (by decide) (by decide) (by decide) rfl (by decide)
